import Mathlib

/-!
# Verification of the bohrium vector-execution back-end against its specification

This file gives a shallow embedding, in Lean 4, of the parts of the bohrium
repository that the specification's claims are about:

* `src/ve/cpu/engine.cpp`   — the CPU JIT engine (`Engine::sij_mode`,
  `Engine::fuse_mode`, `Engine::execute`);
* `src/ve/uni/main.cpp`     — the block fuser (`data_parallel_compatible`,
  `fuser_serial`);
* `src/ve/naive/bh_ve_naive.cpp` — the naive vector engine
  (`bh_ve_naive_execute`, `bh_ve_naive_reg_func`);
* `src/core/compute/cphvb_compute_random.cpp` — the Mersenne-Twister based
  random extension (`rk_seed`, `rk_random`, `rk_hash`, `rk_initseed`,
  `cphvb_compute_random`).

Machine integers are embedded as `Nat` with explicit reduction modulo `2^32`
or `2^64` where the C code relies on fixed-width wrap-around.  Components of
the repository that the engine calls but whose sources are not available
(`Storage`, `Compiler`, the vcache, `core::compatible`, `core::tac_noperands`,
`Block::merge`, `create_nested_block`, `bh_view_disjoint` / `bh_view_aligned`,
`bh_component_get_func`) are either modelled from the specification's words
(marked `Modelled from the spec:` in their doc comments) or kept as opaque
environment oracles passed in explicitly, so every theorem quantifies over
their behaviour.
-/

/-- The `bh_error` status codes surfaced by the back-end
(spec §6, "Error codes surfaced to caller"). -/
inductive BhError where
  | success
  | error
  | outOfMemory
  | typeNotSupported
  | userfuncNotSupported
deriving DecidableEq

/-! ## Embedding of the CPU engine (`src/ve/cpu/engine.cpp`) -/

/-- TAC operation classes (`op` field of `tac_t`), spec §3. -/
inductive TacOp where
  | NOOP
  | SYSTEM
  | EXTENSION
  | MAP
  | ZIP
  | GENERATE
  | REDUCE
  | SCAN
deriving DecidableEq

/-- TAC operators (`oper` field of `tac_t`): `FREE`/`DISCARD`/`SYNC` refine
`SYSTEM`; `ADD`/`MUL` stand for the arithmetic primitives of the array ops
(spec §3).  A `SYSTEM` TAC whose `oper` is an arithmetic primitive falls into
the `default` branch of `Engine::sij_mode`'s inner switch. -/
inductive TacOper where
  | FREE
  | DISCARD
  | SYNC
  | ADD
  | MUL
deriving DecidableEq

/-- Three-address code record (`tac_t`): `(op, oper, out, in1, in2, ext)`,
with operand fields being symbol handles into the `SymbolTable` and `ext`
carrying the opcode of the raw instruction for `EXTENSION` TACs
(engine.cpp line 114 reads `static_cast<bh_instruction*>(tac.ext)->opcode`). -/
structure Tac where
  op : TacOp
  oper : TacOper
  out : Nat
  in1 : Nat
  in2 : Nat
  ext : Nat
deriving DecidableEq

/-- Operand layout tags, ordered
`SCALAR < CONSTANT < CONTIGUOUS < STRIDED < SPARSE` (spec §3). -/
inductive Layout where
  | SCALAR
  | CONSTANT
  | CONTIGUOUS
  | STRIDED
  | SPARSE
deriving DecidableEq

/-- Numeric rank of a layout tag, realizing the ordering used by
`next_layout > fusion_layout` in `Engine::fuse_mode` (engine.cpp 256-279). -/
def Layout.rank : Layout → Nat
  | .SCALAR => 0
  | .CONSTANT => 1
  | .CONTIGUOUS => 2
  | .STRIDED => 3
  | .SPARSE => 4

/-- An operand (`operand_t`): a view plus a layout tag (spec §3).
The base array is identified by a numeric handle. -/
structure Operand where
  layout : Layout
  base : Nat
  ndim : Nat
  shape : List Nat
  stride : List Int
  offset : Nat
deriving DecidableEq

instance : Inhabited Operand := ⟨⟨.SCALAR, 0, 0, [], [], 0⟩⟩

/-- The engine's symbol table: dense handles to operands plus the `temp` set
of scalar-replacement candidates (spec §3, "SymbolTable"). -/
structure SymbolTable where
  operands : List Operand
  temp : List Nat
deriving DecidableEq

/-- `symbol_table[h]` — handle lookup. -/
def SymbolTable.get (st : SymbolTable) (h : Nat) : Operand :=
  st.operands.getD h default

/-- Two operands describe the identical view: same base and same
`(shape, stride, offset)` (spec §3, "View"). -/
def sameView (a b : Operand) : Bool :=
  a.base == b.base && a.ndim == b.ndim && a.shape == b.shape &&
  a.stride == b.stride && a.offset == b.offset

/-- Modelled from the spec: `core::compatible` is not among the given
sources; spec §4.4 defines operand compatibility as: identical view, or both
`CONTIGUOUS` with equal shape, or one is `SCALAR` broadcasting into the
other's shape. -/
def compatible (a b : Operand) : Bool :=
  sameView a b ||
  (a.layout == .CONTIGUOUS && b.layout == .CONTIGUOUS && a.shape == b.shape) ||
  a.layout == .SCALAR || b.layout == .SCALAR

/-- Modelled from the spec: `core::tac_noperands` is not among the given
sources; spec §3/§4.2 give the arity of each TAC class: elementwise binary
(`ZIP`), reductions and prefix ops take an output and two inputs; elementwise
unary (`MAP`) takes an output and one input; fills (`GENERATE`) and system ops
target only their output; `NOOP` touches nothing. -/
def tacNoperands (t : Tac) : Nat :=
  match t.op with
  | .NOOP => 0
  | .SYSTEM => 1
  | .EXTENSION => 1
  | .MAP => 2
  | .ZIP => 3
  | .GENERATE => 1
  | .REDUCE => 3
  | .SCAN => 3

/-- Membership of an op class in the `ARRAY_OPS` mask
(`MAP | ZIP | GENERATE | REDUCE | SCAN`), used by engine.cpp lines 382, 417,
430 and 518. -/
def isArrayOp : TacOp → Bool
  | .MAP => true
  | .ZIP => true
  | .GENERATE => true
  | .REDUCE => true
  | .SCAN => true
  | _ => false

instance : Inhabited Tac := ⟨⟨.NOOP, .SYNC, 0, 0, 0, 0⟩⟩

/-! ### Engine state and environment

`Storage`, `Compiler`, the vcache and the loaded extension methods are
collaborators of `engine.cpp` whose own sources are not under `src/`.
`Storage` is modelled from spec §4.6: `symbol_ready(fp)` means the launcher
function pointer for fingerprint `fp` is resolved in memory, `add_symbol`
records that a freshly compiled object exists, and `load` resolves and caches
the launcher.  The outcomes of the external compiler invocation, of
shared-object loading, of `Block::symbolize`, of vcache allocation / free and
of extension methods are environment oracles. -/

/-- Process-wide engine state: the Storage maps plus a log of every
`Compiler::compile` invocation (by fingerprint). -/
structure EngState where
  objects : List Nat
  funcs : List Nat
  compiles : List Nat
deriving DecidableEq

/-- Environment oracles for the engine: results of the external toolchain
and of the vcache / extension calls, all keyed by fingerprint, base handle or
extension opcode. -/
structure EngEnv where
  compileOk : Nat → Bool
  loadOk : Nat → Bool
  symbolizeOk : Nat → Bool
  extResult : Nat → BhError
  freeResult : Nat → BhError
  mallocResult : Nat → BhError

/-- Engine configuration (spec §6): the JIT switches plus the registered
extension opcodes (the engine's `extensions` map domain). -/
structure EngCfg where
  jitEnabled : Bool
  jitFusion : Bool
  extensions : List Nat

/-- A block as the engine's JIT path sees it: its structural fingerprint
(`Block::symbol()`, already symbolized) and its TACs. -/
structure EBlock where
  symbol : Nat
  tacs : List Tac
deriving DecidableEq

/-- Modelled from the spec: `Storage::symbol_ready(fp)` — the launcher for
`fp` is resolved in memory (spec §4.6). -/
def symbolReady (s : EngState) (fp : Nat) : Bool :=
  decide (fp ∈ s.funcs)

/-- Modelled from the spec: `Storage::add_symbol` — record that a freshly
compiled object exists (spec §4.6). -/
def addSymbol (s : EngState) (fp : Nat) : EngState :=
  { s with objects := s.objects ++ [fp] }

/-- Modelled from the spec: `Storage::load(fp)` — open the shared object,
resolve the launcher, cache it; the outcome of the dlopen/dlsym calls is the
environment oracle `loadOk` (spec §4.6). -/
def storageLoad (env : EngEnv) (s : EngState) (fp : Nat) : Bool × EngState :=
  if env.loadOk fp then (true, { s with funcs := s.funcs ++ [fp] }) else (false, s)

/-- The common JIT compile-then-load phase of `Engine::sij_mode`
(engine.cpp 138-173) and `Engine::fuse_mode` (engine.cpp 381-423).
`gc` is the guard of the compile step (`jit_enabled` for sij;
`jit_enabled && omask & ARRAY_OPS` for fuse) and `gl` the guard of the load
step (always true for sij; `omask & ARRAY_OPS` for fuse).  A compile
invocation is logged on `compiles`; on compiler failure the helper returns
`BH_ERROR` *before* `add_symbol` is reached. -/
def jitLoad (env : EngEnv) (fp : Nat) (gl : Bool) (s : EngState) : BhError × EngState :=
  if gl && !(symbolReady s fp) then
    let r := storageLoad env s fp
    if r.1 then (.success, r.2) else (.error, r.2)
  else (.success, s)

def jitPhase (env : EngEnv) (fp : Nat) (gc gl : Bool) (s : EngState) : BhError × EngState :=
  if gc && !(symbolReady s fp) then
    let s1 : EngState := { s with compiles := s.compiles ++ [fp] }
    if env.compileOk fp then
      jitLoad env fp gl (addSymbol s1 fp)
    else (.error, s1)
  else jitLoad env fp gl s

/-- `Engine::sij_mode` (engine.cpp 78-193): dispatch on the single TAC of the
block.  `NOOP`, `DISCARD` and `SYNC` do nothing; `FREE` returns the vcache
result; an unknown system operator is `BH_ERROR`
("Yeah that does not fly..."); an `EXTENSION` whose opcode is registered
dispatches to the extension method, and one that is *not* registered falls
through silently with `BH_SUCCESS`; array operations run the JIT
compile/load phase and then allocate the output operand's base. -/
def sijMode (env : EngEnv) (cfg : EngCfg) (st : SymbolTable) (blk : EBlock)
    (s : EngState) : BhError × EngState :=
  match blk.tacs.head? with
  | none => (.success, s)
  | some tac =>
    match tac.op with
    | .NOOP => (.success, s)
    | .SYSTEM =>
      match tac.oper with
      | .DISCARD => (.success, s)
      | .SYNC => (.success, s)
      | .FREE =>
        let r := env.freeResult (st.get tac.out).base
        if r ≠ .success then (r, s) else (.success, s)
      | _ => (.error, s)
    | .EXTENSION =>
      if cfg.extensions.contains tac.ext then
        let r := env.extResult tac.ext
        if r ≠ .success then (r, s) else (.success, s)
      else (.success, s)
    | _ =>
      let jr := jitPhase env blk.symbol cfg.jitEnabled true s
      if jr.1 ≠ .success then jr
      else
        let m := env.mallocResult (st.get tac.out).base
        if m ≠ .success then (m, jr.2) else (.success, jr.2)

/-- The vcache allocation loop of `Engine::fuse_mode` (engine.cpp 429-446):
the first failing `bh_vcache_malloc_base` aborts with its status; the bases
of the `out` operands of all `ARRAY_OPS` TACs are allocated. -/
def fuseMallocs (env : EngEnv) (st : SymbolTable) : List Tac → BhError
  | [] => .success
  | t :: ts =>
    if isArrayOp t.op then
      let r := env.mallocResult (st.get t.out).base
      if r ≠ .success then r else fuseMallocs env st ts
    else fuseMallocs env st ts

/-- The de-allocation loop of `Engine::fuse_mode` (engine.cpp 464-476):
every TAC whose `oper` is `FREE` frees its `out` operand's base; the first
failing `bh_vcache_free_base` aborts with its status. -/
def fuseFreesRun (env : EngEnv) (st : SymbolTable) : List Tac → BhError
  | [] => .success
  | t :: ts =>
    if t.oper == TacOper.FREE then
      let r := env.freeResult (st.get t.out).base
      if r ≠ .success then r else fuseFreesRun env st ts
    else fuseFreesRun env st ts

/-- The effectful spine of `Engine::fuse_mode` (engine.cpp 195-480):
symbolize, JIT compile/load, allocate outputs, invoke, honor FREE TACs.
`om` is the `(graph.omask(subgraph_idx) & ARRAY_OPS) > 0` flag.  (The pure
range determination and the scalar-replacement sweep of lines 206-367 are
embedded separately as `fuseRanges` / `fuseScalarCandidate`; they modify no
engine state.) -/
def fuseModeJit (env : EngEnv) (cfg : EngCfg) (st : SymbolTable) (blk : EBlock)
    (om : Bool) (s : EngState) : BhError × EngState :=
  if !(env.symbolizeOk blk.symbol) then (.error, s)
  else
    let jr := jitPhase env blk.symbol (cfg.jitEnabled && om) om s
    if jr.1 ≠ .success then jr
    else
      let m := fuseMallocs env st blk.tacs
      if m ≠ .success then (m, jr.2)
      else
        let f := fuseFreesRun env st blk.tacs
        if f ≠ .success then (f, jr.2) else (.success, jr.2)

/-- One subgraph's worth of work inside `Engine::execute` (engine.cpp
513-537): either the whole subgraph goes through `fuse_mode`, or each vertex
becomes a single-TAC block sent through `sij_mode`.  (The construction of
the subgraphs by `Dag` is not among the given sources, so `execute` takes
the decomposition as input.) -/
inductive SubgraphWork where
  | fuse (blk : EBlock) (om : Bool)
  | sij (blks : List EBlock)

/-- The SIJ inner loop of `Engine::execute` (engine.cpp 526-536): the status
returned by `sij_mode` is discarded — the call on line 535 is a bare
expression statement. -/
def runSijList (env : EngEnv) (cfg : EngCfg) (st : SymbolTable) :
    List EBlock → EngState → EngState
  | [], s => s
  | b :: bs, s => runSijList env cfg st bs (sijMode env cfg st b s).2

/-- `Engine::execute` (engine.cpp 482-542): `res` is initialized to
`BH_SUCCESS`, the statuses of `fuse_mode` (line 523) and `sij_mode`
(line 535) are discarded, and `res` — never reassigned — is returned. -/
def engineExecute (env : EngEnv) (cfg : EngCfg) (st : SymbolTable) :
    List SubgraphWork → EngState → BhError × EngState
  | [], s => (.success, s)
  | .fuse blk om :: rest, s =>
    engineExecute env cfg st rest (fuseModeJit env cfg st blk om s).2
  | .sij blks :: rest, s =>
    engineExecute env cfg st rest (runSijList env cfg st blks s)

/-- A sequence of inner-helper invocations over the engine's lifetime
(several batches' worth), used to state the at-most-one-compilation
invariant. -/
inductive EngCall where
  | sij (st : SymbolTable) (blk : EBlock)
  | fuse (st : SymbolTable) (blk : EBlock) (om : Bool)

/-- Run a sequence of helper invocations, threading the engine state
(statuses are irrelevant to the compile log). -/
def runCalls (env : EngEnv) (cfg : EngCfg) : List EngCall → EngState → EngState
  | [], s => s
  | .sij st b :: r, s => runCalls env cfg r (sijMode env cfg st b s).2
  | .fuse st b om :: r, s => runCalls env cfg r (fuseModeJit env cfg st b om s).2

/-! ### The fuse-range sweep and the scalar-replacement sweep of
`Engine::fuse_mode` (engine.cpp 206-367).  Both are pure. -/

/-- One entry of the `ranges` vector (`triplet_t`): `{begin, end, layout}`. -/
structure Triplet where
  rbegin : Nat
  rend : Nat
  layout : Layout
deriving DecidableEq

/-- `if (next_layout > fusion_layout) fusion_layout = next_layout;`
(engine.cpp 257-258 and twins). -/
def layoutMaxIfGt (cur next : Layout) : Layout :=
  if next.rank > cur.rank then next else cur

/-- The operand-compatibility-and-layout switch of the range sweep
(engine.cpp 252-288): on `tac_noperands(next)` with C fall-through from
`case 3` into `case 2`; updates `fusion_layout` with each operand's layout
and conjoins `compatible(symbol_table[first->out], symbol_table[·])` over
the second input, first input and output.  The `default` branch only prints
and leaves `compat_operands` true. -/
def fuseCheck (st : SymbolTable) (firstOut : Operand) (next : Tac)
    (fl : Layout) : Bool × Layout :=
  match tacNoperands next with
  | 3 =>
    let fl1 := layoutMaxIfGt fl (st.get next.in2).layout
    let c1 := compatible firstOut (st.get next.in2)
    let fl2 := layoutMaxIfGt fl1 (st.get next.in1).layout
    let c2 := c1 && compatible firstOut (st.get next.in1)
    let fl3 := layoutMaxIfGt fl2 (st.get next.out).layout
    (c2 && compatible firstOut (st.get next.out), fl3)
  | 2 =>
    let fl2 := layoutMaxIfGt fl (st.get next.in1).layout
    let c2 := compatible firstOut (st.get next.in1)
    let fl3 := layoutMaxIfGt fl2 (st.get next.out).layout
    (c2 && compatible firstOut (st.get next.out), fl3)
  | _ => (true, fl)

/-- Loop state of the range sweep: the `ranges` vector, `range_begin`, the
index behind the `first` pointer, and `fusion_layout`. -/
structure FuseLoopState where
  ranges : List Triplet
  rangeBegin : Nat
  firstIdx : Nat
  fusionLayout : Layout
deriving DecidableEq

/-- One iteration of the range-splitting sweep (engine.cpp 218-307) at index
`tacIdx`.  The first guard is kept verbatim from the source:
`if ((next.op == SYSTEM) && (next.op == NOOP)) continue;` — a conjunction of
two contradictory equality tests (line 224). -/
def fuseRangesStep (st : SymbolTable) (tacs : List Tac)
    (ls : FuseLoopState) (tacIdx : Nat) : FuseLoopState :=
  let rangeEnd := tacIdx
  let next := tacs.getD tacIdx default
  if (next.op == TacOp.SYSTEM) && (next.op == TacOp.NOOP) then
    ls
  else if !((next.op == TacOp.MAP) || (next.op == TacOp.ZIP)) then
    let newRanges :=
      if ls.rangeBegin < rangeEnd then
        ls.ranges ++ [⟨ls.rangeBegin, rangeEnd - 1, ls.fusionLayout⟩,
                      ⟨rangeEnd, rangeEnd, ls.fusionLayout⟩]
      else
        ls.ranges ++ [⟨ls.rangeBegin, ls.rangeBegin, ls.fusionLayout⟩]
    let rb := tacIdx + 1
    { ranges := newRanges, rangeBegin := rb,
      firstIdx := if rb < tacs.length then rb else ls.firstIdx,
      fusionLayout := ls.fusionLayout }
  else
    let chk := fuseCheck st (st.get ((tacs.getD ls.firstIdx default).out)) next ls.fusionLayout
    if !chk.1 then
      let newRanges :=
        if ls.rangeBegin < rangeEnd then
          ls.ranges ++ [⟨ls.rangeBegin, rangeEnd - 1, chk.2⟩]
        else
          ls.ranges ++ [⟨ls.rangeBegin, ls.rangeBegin, chk.2⟩]
      { ranges := newRanges, rangeBegin := tacIdx,
        firstIdx := if tacIdx < tacs.length then tacIdx else ls.firstIdx,
        fusionLayout := chk.2 }
    else
      { ls with fusionLayout := chk.2 }

/-- The complete fuse-range determination of `Engine::fuse_mode`
(engine.cpp 206-312), including the final "store the last range" push. -/
def fuseRanges (st : SymbolTable) (tacs : List Tac) : List Triplet :=
  let fin := (List.range tacs.length).foldl (fuseRangesStep st tacs)
    ⟨[], 0, 0, .CONSTANT⟩
  if fin.rangeBegin < tacs.length then
    fin.ranges ++ [⟨fin.rangeBegin, tacs.length - 1, fin.fusionLayout⟩]
  else fin.ranges

/-- Input contributions of one TAC to the per-range ref-count
(engine.cpp 333-345, with C fall-through: `case 3` pushes `in2` when it
differs from `in1`, then `case 2` pushes `in1`). -/
def tacInputs (t : Tac) : List Nat :=
  match tacNoperands t with
  | 3 => if t.in2 ≠ t.in1 then [t.in2, t.in1] else [t.in1]
  | 2 => [t.in1]
  | _ => []

/-- Output contribution of one TAC to the per-range ref-count
(engine.cpp 342-345: any TAC with at least one operand pushes `out`). -/
def tacOutputs (t : Tac) : List Nat :=
  match tacNoperands t with
  | 3 => [t.out]
  | 2 => [t.out]
  | 1 => [t.out]
  | _ => []

/-- The TACs of the inclusive range `[rb, re]` of a block. -/
def rangeTacs (tacs : List Tac) (rb re : Nat) : List Tac :=
  (tacs.drop rb).take (re + 1 - rb)

/-- The `inputs` vector accumulated by the ref-count loop over one range. -/
def rangeInputs (tacs : List Tac) (rb re : Nat) : List Nat :=
  ((rangeTacs tacs rb re).map tacInputs).flatten

/-- The `outputs` vector accumulated by the ref-count loop over one range. -/
def rangeOutputs (tacs : List Tac) (rb re : Nat) : List Nat :=
  ((rangeTacs tacs rb re).map tacOutputs).flatten

/-- The scalar-replacement candidate test of `Engine::fuse_mode`
(engine.cpp 357-359): operand `o` is read exactly once in the range, written
exactly once in the range, and is in the symbol table's `temp` set.  In the
source, a candidate is only reported by a `DEBUG` line — the call
`symbol_table.turn_scalar(operand)` on line 360 is commented out, so no
operand is actually turned into a scalar. -/
def fuseScalarCandidate (st : SymbolTable) (tacs : List Tac)
    (rb re o : Nat) : Bool :=
  ((rangeInputs tacs rb re).count o == 1) &&
  ((rangeOutputs tacs rb re).count o == 1) &&
  decide (o ∈ st.temp)

/-- The operand handles whose bases the allocation loop of
`Engine::fuse_mode` (engine.cpp 429-446) passes to `bh_vcache_malloc_base`:
the `out` of every `ARRAY_OPS` TAC of the block. -/
def fuseModeAllocOperands (tacs : List Tac) : List Nat :=
  (tacs.filter (fun t => isArrayOp t.op)).map (fun t => t.out)

/-- The operand handles whose bases the de-allocation loop of
`Engine::fuse_mode` (engine.cpp 464-476) passes to `bh_vcache_free_base`:
the `out` of every TAC whose `oper` is `FREE`. -/
def fuseModeFreeOperands (tacs : List Tac) : List Nat :=
  (tacs.filter (fun t => t.oper == TacOper.FREE)).map (fun t => t.out)

/-! ## Embedding of the block fuser (`src/ve/uni/main.cpp`)

Views are identified by numeric handles; the predicates `bh_view_disjoint`
and `bh_view_aligned`, the opcode classifiers `bh_opcode_is_system` /
reduction-ness, and `bh_noperands` are not among the given sources, so they
are oracles in a fuser environment `FEnv` — every theorem about the fuser
quantifies over them.  An instruction carries its opcode and its operand
views (`operand[0]` is the output); the length of the operand list plays the
role of `bh_noperands(opcode)`. -/

/-- A `bh_instruction` as the fuser sees it. -/
structure UInstr where
  opcode : Nat
  operands : List Nat
deriving DecidableEq

/-- Fuser environment: view relations and opcode classifiers that live
outside the given sources. -/
structure FEnv where
  disjoint : Nat → Nat → Bool
  aligned : Nat → Nat → Bool
  isSystem : Nat → Bool
  isSweep : Nat → Bool
  nestReshapable : List UInstr → Bool

/-- `instr.operand[0]` — the output view of an instruction (`0` when the
operand list is empty, which for non-system instructions does not occur). -/
def instrOut (i : UInstr) : Nat :=
  i.operands.getD 0 0

/-- The per-instruction-pair core of `data_parallel_compatible`
(main.cpp 185-199): the output of each instruction is disjoint from or
aligned with every operand of the other (argument order as in the source:
`bh_view_disjoint(&b->operand[0], &a->operand[i])`). -/
def dpcPairOK (env : FEnv) (a b : UInstr) : Bool :=
  (a.operands.all fun v => env.disjoint (instrOut b) v || env.aligned (instrOut b) v) &&
  (b.operands.all fun v => env.disjoint (instrOut a) v || env.aligned (instrOut a) v)

/-- `data_parallel_compatible(const bh_instruction*, const bh_instruction*)`
(main.cpp 180-200): vacuously true when either instruction is a system op. -/
def dpcInstr (env : FEnv) (a b : UInstr) : Bool :=
  if env.isSystem a.opcode || env.isSystem b.opcode then true
  else dpcPairOK env a b

mutual
/-- The `Block` tree of the nested-loop generator: an instruction leaf
(possibly null, cf. `block._instr != NULL` in `write_block`) or a loop nest
carrying `rank`, `size`, `_reshapable`, `_sweeps` and `_block_list`.  The
child vector is the mutually defined `UBlockList` so that all recursions
over the tree are structural (and hence evaluable). -/
inductive UBlock where
  | instr (i : Option UInstr) (rank : Nat)
  | node (rank : Nat) (size : Nat) (reshapable : Bool)
      (sweeps : List UInstr) (blocks : UBlockList)
inductive UBlockList where
  | nil
  | cons (b : UBlock) (bs : UBlockList)
end

/-- Convert a plain list of blocks into a child vector. -/
def UBlockList.ofList : List UBlock → UBlockList
  | [] => .nil
  | b :: bs => .cons b (UBlockList.ofList bs)

/-- Convert a child vector into a plain list of blocks. -/
def UBlockList.toList : UBlockList → List UBlock
  | .nil => []
  | .cons b bs => b :: bs.toList

/-- Concatenation of child vectors (for `merge`'s block-list join). -/
def UBlockList.append : UBlockList → UBlockList → UBlockList
  | .nil, l => l
  | .cons b bs, l => .cons b (bs.append l)

/-- `Block::isInstr()`. -/
def UBlock.isInstr : UBlock → Bool
  | .instr _ _ => true
  | .node _ _ _ _ _ => false

/-- `Block::rank`. -/
def UBlock.rank : UBlock → Nat
  | .instr _ r => r
  | .node r _ _ _ _ => r

/-- `Block::size` (loop extent at this nesting level; instruction leaves
carry no size and default to `0`). -/
def UBlock.size : UBlock → Nat
  | .instr _ _ => 0
  | .node _ s _ _ _ => s

/-- `Block::_reshapable`. -/
def UBlock.reshapable : UBlock → Bool
  | .instr _ _ => false
  | .node _ _ r _ _ => r

/-- `Block::_sweeps`. -/
def UBlock.sweeps : UBlock → List UInstr
  | .instr _ _ => []
  | .node _ _ _ sw _ => sw

/-- `Block::_block_list`. -/
def UBlock.blocks : UBlock → UBlockList
  | .instr _ _ => .nil
  | .node _ _ _ _ bl => bl

/-- `cur._block_list = ...` — replace the block list of a nest. -/
def UBlock.setBlocks : UBlock → UBlockList → UBlock
  | .instr i r, _ => .instr i r
  | .node r s resh sw _, bl => .node r s resh sw bl

mutual
/-- `Block::getAllInstr()` — all instructions of the tree, in order. -/
def UBlock.getAllInstr : UBlock → List UInstr
  | .instr none _ => []
  | .instr (some i) _ => [i]
  | .node _ _ _ _ bl => bl.getAllInstr
/-- `getAllInstr` over a child vector. -/
def UBlockList.getAllInstr : UBlockList → List UInstr
  | .nil => []
  | .cons b bs => b.getAllInstr ++ bs.getAllInstr
end

/-- `data_parallel_compatible(const Block&, const Block&)`
(main.cpp 203-211): all instruction pairs are pairwise compatible. -/
def dpcBlock (env : FEnv) (x y : UBlock) : Bool :=
  x.getAllInstr.all fun i1 => y.getAllInstr.all fun i2 => dpcInstr env i1 i2

/-- Modelled from the spec: `create_nested_block(instrs, rank, size, news)`
(block.hpp, not among the given sources) re-nests a list of instructions at
the given rank with the given loop size (spec §4.4, "both instruction lists
are re-nested together"); its sweep set collects the sweeped (reduction /
scan) instructions and its reshapability is the oracle `nestReshapable`.
Its `getAllInstr` is exactly the instruction list handed to it, which is all
the fuser theorems below depend on. -/
def create_nested_block (env : FEnv) (instrs : List UInstr)
    (rank size : Nat) : UBlock :=
  .node rank size (env.nestReshapable instrs)
    (instrs.filter fun i => env.isSweep i.opcode)
    (UBlockList.ofList (instrs.map fun i => .instr (some i) (rank + 1)))

/-- Modelled from the spec: `merge(cur, *it)` (block.hpp, not among the
given sources) joins two loop nests of equal rank and size into one, keeping
the first block's rank and size and concatenating sweeps and block lists.
Its `getAllInstr` is the concatenation of the two inputs'. -/
def umerge : UBlock → UBlock → UBlock
  | .node r s resh sw bl, .node _ _ resh2 sw2 bl2 =>
    .node r s (resh && resh2) (sw ++ sw2) (bl.append bl2)
  | a, _ => a

/-- The merge decision of `fuser_serial`'s inner loop (main.cpp 223-258),
for the accumulated block `cur` against the next block `b`, in source
order: an instruction block is never fused; incompatible data-parallelism
breaks; a sweeping `cur` breaks ("TODO: support merge of reduction"); equal
sizes merge directly; a reshapable `b` whose size `cur.size` divides evenly
re-nests both instruction lists at `b.rank` with size `cur.size`; the
symmetric case re-nests at `cur.rank` with size `b.size`; otherwise no
merge. -/
def mergeDecision (env : FEnv) (cur b : UBlock) : Option UBlock :=
  if b.isInstr then none
  else if !(dpcBlock env cur b) then none
  else if !(cur.sweeps.isEmpty) then none
  else if cur.size == b.size then some (umerge cur b)
  else if b.reshapable && (b.size % cur.size == 0) then
    some (create_nested_block env (cur.getAllInstr ++ b.getAllInstr) b.rank cur.size)
  else if cur.reshapable && (cur.size % b.size == 0) then
    some (create_nested_block env (cur.getAllInstr ++ b.getAllInstr) cur.rank b.size)
  else none

/-- The inner absorption loop of `fuser_serial` (main.cpp 223-259): keep
merging the following blocks into `cur` until the merge decision says no.
Returns the final accumulated block, the number of blocks consumed, and the
list of merge events `(accumulated block, absorbed block)` in order. -/
def absorb (env : FEnv) (cur : UBlock) :
    List UBlock → UBlock × Nat × List (UBlock × UBlock)
  | [] => (cur, 0, [])
  | b :: bs =>
    match mergeDecision env cur b with
    | none => (cur, 0, [])
    | some m =>
      let t := absorb env m bs
      (t.1, t.2.1 + 1, (cur, b) :: t.2.2)

/-- `fuser_serial(block_list, news)` (main.cpp 213-264), instrumented with
the list of merge events it performs.  The `fuel` parameter bounds the
recursion depth into nested block lists (the C++ recursion
`cur._block_list = fuser_serial(cur._block_list, news)` terminates on any
finite block tree, and every theorem below quantifies over all `fuel`);
when fuel runs out the remaining list is returned unfused with no events. -/
def fuserSerial (env : FEnv) : Nat → List UBlock → List UBlock × List (UBlock × UBlock)
  | 0, l => (l, [])
  | _ + 1, [] => ([], [])
  | fuel + 1, b :: bs =>
    if b.isInstr then
      let t := fuserSerial env fuel bs
      (b :: t.1, t.2)
    else
      let a := absorb env b bs
      let inner := fuserSerial env fuel a.1.blocks.toList
      let rest := fuserSerial env fuel (bs.drop a.2.1)
      ((a.1.setBlocks (UBlockList.ofList inner.1)) :: rest.1, a.2.2 ++ inner.2 ++ rest.2)

/-! ## Embedding of the naive vector engine (`src/ve/naive/bh_ve_naive.cpp`) -/

/-- The static registration state of `bh_ve_naive`: per user function, the
possibly-NULL implementation pointer (a numeric handle when present) and the
`*_impl_id` static (initialized to `0`). -/
structure NaiveState where
  randomImpl : Option Nat
  randomImplId : Int
  matmulImpl : Option Nat
  matmulImplId : Int
  nselectImpl : Option Nat
  nselectImplId : Int
deriving DecidableEq

/-- Environment oracles of the naive engine: `bh_component_get_func` lookup
(component glue, out of scope per spec §1), the vcache results, the result of
`bh_compute_apply_naive`, and the result of dispatching through a
(possibly NULL — the C dereference is undefined) implementation pointer. -/
structure NaiveEnv where
  getFunc : String → Option Nat
  vcacheFree : Nat → BhError
  vcacheMalloc : Nat → BhError
  compute : Nat → BhError
  callImpl : Option Nat → BhError

/-- One instruction as `bh_ve_naive_execute` dispatches it: the
`BH_NONE`/`BH_DISCARD`/`BH_SYNC` group, `BH_FREE`, `BH_USERFUNC` with its
`userfunc->id`, or a built-in operation (with the flag
`bh_base_array(operand[0])->data == NULL` and the base handle). -/
inductive NInstr where
  | nop
  | discard
  | sync
  | free (base : Nat)
  | userfunc (id : Int)
  | builtin (dataNull : Bool) (base : Nat)
deriving DecidableEq

/-- One iteration of the dispatch switch of `bh_ve_naive_execute`
(bh_ve_naive.cpp 66-97).  `BH_USERFUNC` compares the instruction's id
against the three registered ids in order and falls through to
`BH_USERFUNC_NOT_SUPPORTED`; a built-in allocates … when `data` is NULL and
then computes. -/
def naiveStep (env : NaiveEnv) (ns : NaiveState) : NInstr → BhError
  | .nop => .success
  | .discard => .success
  | .sync => .success
  | .free b => env.vcacheFree b
  | .userfunc i =>
    if i = ns.randomImplId then env.callImpl ns.randomImpl
    else if i = ns.matmulImplId then env.callImpl ns.matmulImpl
    else if i = ns.nselectImplId then env.callImpl ns.nselectImpl
    else .userfuncNotSupported
  | .builtin dataNull b =>
    if dataNull then
      let r := env.vcacheMalloc b
      if r ≠ .success then r else env.compute b
    else env.compute b

/-- `bh_ve_naive_execute` (bh_ve_naive.cpp 52-105): dispatch each
instruction in order and stop at the first non-success status
(`if (res != BH_SUCCESS) break;` on line 99), returning it. -/
def naiveExecute (env : NaiveEnv) (ns : NaiveState) : List NInstr → BhError
  | [] => .success
  | i :: rest =>
    let r := naiveStep env ns i
    if r ≠ .success then r else naiveExecute env ns rest

/-- The three user-function names `bh_ve_naive_reg_func` recognizes. -/
def bhRandomName : String := "bh_random"

def bhMatmulName : String := "bh_matmul"

def bhNselectName : String := "bh_nselect"

/-- `bh_ve_naive_reg_func(fun, id)` (bh_ve_naive.cpp 117-158), returning
`(status, value of *id on return, new registration state)`.  For each
supported name: when no implementation is registered yet, look it up via
`bh_component_get_func`; failure is `BH_USERFUNC_NOT_SUPPORTED` (with `*id`
untouched), success records the caller-supplied `*id`; when an
implementation is already registered, write the recorded id into `*id` and
return success.  Any other name is `BH_USERFUNC_NOT_SUPPORTED`. -/
def naiveRegFunc (env : NaiveEnv) (ns : NaiveState) (fname : String)
    (id : Int) : BhError × Int × NaiveState :=
  if fname = bhRandomName then
    match ns.randomImpl with
    | none =>
      match env.getFunc fname with
      | none => (.userfuncNotSupported, id, ns)
      | some f => (.success, id, { ns with randomImpl := some f, randomImplId := id })
    | some _ => (.success, ns.randomImplId, ns)
  else if fname = bhMatmulName then
    match ns.matmulImpl with
    | none =>
      match env.getFunc fname with
      | none => (.userfuncNotSupported, id, ns)
      | some f => (.success, id, { ns with matmulImpl := some f, matmulImplId := id })
    | some _ => (.success, ns.matmulImplId, ns)
  else if fname = bhNselectName then
    match ns.nselectImpl with
    | none =>
      match env.getFunc fname with
      | none => (.userfuncNotSupported, id, ns)
      | some f => (.success, id, { ns with nselectImpl := some f, nselectImplId := id })
    | some _ => (.success, ns.nselectImplId, ns)
  else (.userfuncNotSupported, id, ns)

/-- The registration slot of one function name: `(impl, impl_id)`. -/
def regSlot (ns : NaiveState) (fname : String) : Option Nat × Int :=
  if fname = bhRandomName then (ns.randomImpl, ns.randomImplId)
  else if fname = bhMatmulName then (ns.matmulImpl, ns.matmulImplId)
  else if fname = bhNselectName then (ns.nselectImpl, ns.nselectImplId)
  else (none, 0)

/-- Run a sequence of `bh_ve_naive_reg_func` calls `(name, *id)`, threading
the registration state. -/
def runRegCalls (env : NaiveEnv) : List (String × Int) → NaiveState → NaiveState
  | [], ns => ns
  | c :: r, ns => runRegCalls env r (naiveRegFunc env ns c.1 c.2).2.2

/-! ## Embedding of the random extension
(`src/core/compute/cphvb_compute_random.cpp`)

The C code works on `unsigned long` (64-bit) values; the Mersenne-Twister
state words are kept below `2^32` by the masks the code applies.  All
arithmetic is `Nat` with explicit reduction modulo `2^64` / `2^32`. -/

/-- Reduction modulo `2^32`. -/
def mask32 (x : Nat) : Nat := x % 4294967296

/-- Reduction modulo `2^64`. -/
def mask64 (x : Nat) : Nat := x % 18446744073709551616

/-- 64-bit bitwise complement `~x`. -/
def not64 (x : Nat) : Nat := 18446744073709551615 - mask64 x

/-- `rk_hash` (cphvb_compute_random.cpp 157-167): Thomas Wang's 32-bit
integer hash, computed on `unsigned long` (64-bit wrap-around). -/
def rkHash (key : Nat) : Nat :=
  let k0 := mask64 key
  let k1 := mask64 (k0 + not64 (mask64 (k0 <<< 15)))
  let k2 := k1 ^^^ (k1 >>> 10)
  let k3 := mask64 (k2 + mask64 (k2 <<< 3))
  let k4 := k3 ^^^ (k3 >>> 6)
  let k5 := mask64 (k4 + not64 (mask64 (k4 <<< 11)))
  k5 ^^^ (k5 >>> 16)

/-- The Mersenne-Twister state (`rk_state`): 624 key words and a position. -/
structure RkState where
  key : List Nat
  pos : Nat
deriving DecidableEq

/-- The key-filling loop of `rk_seed` (cphvb_compute_random.cpp 143-155):
Knuth's PRNG, `key[pos] = seed; seed = (1812433253 * (seed ^ (seed >> 30))
+ pos + 1) & 0xffffffff`. -/
def rkSeedKey : Nat → Nat → Nat → List Nat
  | _, _, 0 => []
  | seed, pos, n + 1 =>
    seed :: rkSeedKey (mask32 (1812433253 * (seed ^^^ (seed >>> 30)) + pos + 1)) (pos + 1) n

/-- `rk_seed(seed, state)`: mask the seed to 32 bits, fill all 624 key words,
set `pos = RK_STATE_LEN`. -/
def rkSeed (seed : Nat) : RkState :=
  ⟨rkSeedKey (mask32 seed) 0 624, 624⟩

/-- `rk_initseed` (cphvb_compute_random.cpp 168-182), non-Windows branch:
seed from `rk_hash(getpid()) ^ rk_hash(tv.tv_sec) ^ rk_hash(tv.tv_usec)`.
The process id and the time of day are explicit inputs of the model. -/
def initSeedOf (pid sec usec : Nat) : Nat :=
  rkHash pid ^^^ rkHash sec ^^^ rkHash usec

/-- The twist update for a single index `i` of the in-place regeneration
loop of `rk_random` (cphvb_compute_random.cpp 52-67):
`y = (key[i] & UPPER_MASK) | (key[(i+1) % N] & LOWER_MASK);`
`key[i] = key[(i+M) % N] ^ (y >> 1) ^ (-(y & 1) & MATRIX_A);`
reading the *current* (partially updated) key array, exactly as the three C
loops do in place. -/
def twistStep (key : List Nat) (i : Nat) : List Nat :=
  let y := ((key.getD i 0) &&& 2147483648) ||| ((key.getD ((i + 1) % 624) 0) &&& 2147483647)
  key.set i ((key.getD ((i + 397) % 624) 0) ^^^ (y >>> 1) ^^^
    (if y &&& 1 == 1 then 2567483615 else 0))

/-- The full state regeneration of `rk_random`: indices `0..623` in order,
in place. -/
def mtTwist (key : List Nat) : List Nat :=
  (List.range 624).foldl twistStep key

/-- The tempering of `rk_random` (cphvb_compute_random.cpp 70-74). -/
def temper (y0 : Nat) : Nat :=
  let y1 := y0 ^^^ (y0 >>> 11)
  let y2 := y1 ^^^ ((y1 <<< 7) &&& 2636928640)
  let y3 := y2 ^^^ ((y2 <<< 15) &&& 4022730752)
  y3 ^^^ (y3 >>> 18)

/-- `rk_random(state)` (cphvb_compute_random.cpp 47-77): regenerate when
`pos == RK_STATE_LEN`, then return the tempered word at `pos`,
incrementing `pos`. -/
def rkRandom (s : RkState) : Nat × RkState :=
  if s.pos == 624 then
    let k := mtTwist s.key
    (temper (k.getD 0 0), ⟨k, 1⟩)
  else
    (temper (s.key.getD s.pos 0), ⟨s.key, s.pos + 1⟩)

/-- The scalar types of `cphvb_compute_random`'s switch; `other` stands for
any type of the `default` branch (`CPHVB_TYPE_NOT_SUPPORTED`). -/
inductive CphvbType where
  | int8
  | int16
  | int32
  | int64
  | uint8
  | uint16
  | uint32
  | uint64
  | float32
  | float64
  | other
deriving DecidableEq

/-- One element draw per scalar type (cphvb_compute_random.cpp 78-142).
Integer types are the masked draws of the corresponding `rk_*` function;
64-bit types combine two draws (`(res << 32) | rk_random(state)`).
`float32` elements are recorded as the raw 32-bit draw and `float64`
elements as the integer mantissa `a * 67108864 + b` of `rk_double`
(`a = draw1 >> 5`, `b = draw2 >> 6`): the IEEE value produced by the C code
is a fixed injective function of this integer, so byte-identity of the
filled array is equivalent to equality of these encodings. -/
def genElem : CphvbType → RkState → Nat × RkState
  | .int8, s => let r := rkRandom s; (r.1 &&& 127, r.2)
  | .int16, s => let r := rkRandom s; (r.1 &&& 32767, r.2)
  | .int32, s => let r := rkRandom s; (r.1 &&& 2147483647, r.2)
  | .int64, s =>
    let r1 := rkRandom s
    let r2 := rkRandom r1.2
    (((r1.1 &&& 2147483647) <<< 32) ||| r2.1, r2.2)
  | .uint8, s => let r := rkRandom s; (r.1 &&& 255, r.2)
  | .uint16, s => let r := rkRandom s; (r.1 &&& 65535, r.2)
  | .uint32, s => let r := rkRandom s; (r.1, r.2)
  | .uint64, s =>
    let r1 := rkRandom s
    let r2 := rkRandom r1.2
    ((r1.1 <<< 32) ||| r2.1, r2.2)
  | .float32, s => let r := rkRandom s; (r.1, r.2)
  | .float64, s =>
    let r1 := rkRandom s
    let r2 := rkRandom r1.2
    ((r1.1 >>> 5) * 67108864 + (r2.1 >>> 6), r2.2)
  | .other, s => (0, s)

/-- The fill loop of `cphvb_compute_random`: `size` elements drawn in
sequence from the state. -/
def fillN (t : CphvbType) : Nat → RkState → List Nat
  | 0, _ => []
  | n + 1, s =>
    let r := genElem t s
    r.1 :: fillN t n r.2

/-- `cphvb_compute_random(arg, ve_arg)` (cphvb_compute_random.cpp 187-289):
ensure the output buffer is allocated (`CPHVB_OUT_OF_MEMORY` on failure),
seed a fresh state with `rk_initseed`, and fill `size` elements of the
operand's scalar type; unknown types are `CPHVB_TYPE_NOT_SUPPORTED`. -/
def computeRandom (mallocOk : Bool) (t : CphvbType) (size : Nat)
    (pid sec usec : Nat) : Except BhError (List Nat) :=
  if !mallocOk then .error .outOfMemory
  else
    match t with
    | .other => .error .typeNotSupported
    | _ => .ok (fillN t size (rkSeed (initSeedOf pid sec usec)))

/-- Follows the spec's words (refinement side for the merge decision):
two adjacent blocks may be merged exactly when the next block is not an
instruction block, the two are data-parallel compatible, the accumulated
block carries no sweeps, and either the sizes are equal or one block is
marked reshapable and the other block's size divides the reshapable
block's size evenly (spec §4.4, "Reshape-based fusion"). -/
def specMergeCondition (env : FEnv) (cur b : UBlock) : Bool :=
  !b.isInstr && dpcBlock env cur b && cur.sweeps.isEmpty &&
  (cur.size == b.size ||
   (b.reshapable && decide (cur.size ∣ b.size)) ||
   (cur.reshapable && decide (b.size ∣ cur.size)))

/-! ## Concrete fixtures used by the closed theorems and witnesses below -/

/-- A 1-d contiguous operand of shape `[4]` over base `b`. -/
def opFix (b : Nat) : Operand := ⟨.CONTIGUOUS, b, 1, [4], [1], 0⟩

/-- A symbol table with five contiguous operands over distinct bases;
handle `2` is in the `temp` set. -/
def stFix : SymbolTable := ⟨[opFix 0, opFix 1, opFix 2, opFix 3, opFix 4], [2]⟩

/-- The spec's "Temp fusion" scenario as a TAC block:
`ZIP_MUL(t, a, b); ZIP_ADD(out, t, a); FREE(t)` with handles
`a = 0, b = 1, t = 2, out = 3`. -/
def tacsTempFusion : List Tac :=
  [⟨.ZIP, .MUL, 2, 0, 1, 0⟩, ⟨.ZIP, .ADD, 3, 2, 0, 0⟩, ⟨.SYSTEM, .FREE, 2, 0, 0, 0⟩]

/-- A block with a SYSTEM TAC between two operand-compatible ZIPs:
`ZIP_MUL(2, 0, 1); FREE(4); ZIP_ADD(3, 2, 0)`. -/
def tacsSysMid : List Tac :=
  [⟨.ZIP, .MUL, 2, 0, 1, 0⟩, ⟨.SYSTEM, .FREE, 4, 0, 0, 0⟩, ⟨.ZIP, .ADD, 3, 2, 0, 0⟩]

/-- Benign engine environment: toolchain, loader and vcache always
succeed. -/
def envOk : EngEnv :=
  ⟨fun _ => true, fun _ => true, fun _ => true,
   fun _ => .success, fun _ => .success, fun _ => .success⟩

/-- Engine environment whose external compiler invocation always fails. -/
def envNoCompile : EngEnv :=
  ⟨fun _ => false, fun _ => true, fun _ => true,
   fun _ => .success, fun _ => .success, fun _ => .success⟩

/-- JIT-enabled configuration with no registered extensions. -/
def cfgJit : EngCfg := ⟨true, true, []⟩

/-- Fresh engine state. -/
def engS0 : EngState := ⟨[], [], []⟩

/-- Engine state in which fingerprint `7` is compiled and its symbol
loaded. -/
def engS7 : EngState := ⟨[7], [7], []⟩

/-- A SYSTEM TAC whose `oper` is none of FREE/DISCARD/SYNC — it hits the
`default` branch of `sij_mode`'s system switch (engine.cpp 105-107). -/
def badSysTac : Tac := ⟨.SYSTEM, .ADD, 0, 0, 0, 0⟩

/-- A single-TAC block holding `badSysTac`. -/
def badSysBlock : EBlock := ⟨0, [badSysTac]⟩

/-- An EXTENSION TAC whose extension opcode `5` is never registered. -/
def extTac : Tac := ⟨.EXTENSION, .ADD, 0, 0, 0, 5⟩

/-- A single-TAC block holding `extTac`. -/
def extBlock : EBlock := ⟨3, [extTac]⟩

/-- A single-MAP block with fingerprint `7`. -/
def mapBlock7 : EBlock := ⟨7, [⟨.MAP, .ADD, 2, 0, 0, 0⟩]⟩

/-- A single-MAP block with fingerprint `9`. -/
def mapBlock9 : EBlock := ⟨9, [⟨.MAP, .ADD, 2, 0, 0, 0⟩]⟩

/-- Fuser oracle environment in which every pair of views is aligned and
nothing is a system op or a sweep. -/
def fenvAligned : FEnv :=
  ⟨fun _ _ => false, fun _ _ => true, fun _ => false, fun _ => false, fun _ => true⟩

/-- Fuser oracle environment in which no pair of views is disjoint or
aligned and nothing is a system op. -/
def fenvClash : FEnv :=
  ⟨fun _ _ => false, fun _ _ => false, fun _ => false, fun _ => false, fun _ => true⟩

/-- A non-system instruction writing view `10` and reading view `11`. -/
def instrA : UInstr := ⟨1, [10, 11]⟩

/-- A non-system instruction writing view `12` and reading view `10`. -/
def instrB : UInstr := ⟨2, [12, 10]⟩

/-- A rank-0 loop nest of size 4 around `instrA`. -/
def blockA : UBlock := .node 0 4 false [] (.cons (.instr (some instrA) 1) .nil)

/-- A rank-0 loop nest of size 4 around `instrB`. -/
def blockB : UBlock := .node 0 4 false [] (.cons (.instr (some instrB) 1) .nil)

/-- A rank-0 non-reshapable loop nest of size 2 around `instrA`. -/
def blockC : UBlock := .node 0 2 false [] (.cons (.instr (some instrA) 1) .nil)

/-- A rank-0 reshapable loop nest of size 4 around `instrB`. -/
def blockD : UBlock := .node 0 4 true [] (.cons (.instr (some instrB) 1) .nil)

/-- Fresh naive registration state (all statics NULL / 0). -/
def nsEmpty : NaiveState := ⟨none, 0, none, 0, none, 0⟩

/-- Naive state with `bh_random` registered under implementation handle `11`
and id `42`. -/
def nsRandomReg : NaiveState := ⟨some 11, 42, none, 0, none, 0⟩

/-- Benign naive environment: lookups find handle `11`, everything
succeeds. -/
def nenvOk : NaiveEnv :=
  ⟨fun _ => some 11, fun _ => .success, fun _ => .success,
   fun _ => .success, fun _ => .success⟩

/-! # Theorems -/

/-! ## C1 — error propagation in `Engine::execute` -/

/-- C1: the claim fails on the code, which contradicts its own design: the
statuses of the inner helpers are discarded at both call sites
(engine.cpp 523, 535) and `res` — initialized to `BH_SUCCESS` and never
reassigned — is returned.  At the concrete batch below `sij_mode` reports
`BH_ERROR` yet `execute` returns `BH_SUCCESS`; in fact `engineExecute`
returns `BH_SUCCESS` on *every* input (third conjunct), refuting
"its return value is SUCCESS only if every helper invocation it performed
returned SUCCESS". -/
theorem execute_discards_helper_status :
    (sijMode envOk cfgJit stFix badSysBlock engS0).1 = .error ∧
    (engineExecute envOk cfgJit stFix [.sij [badSysBlock]] engS0).1 = .success ∧
    ∀ (env : EngEnv) (cfg : EngCfg) (st : SymbolTable)
      (work : List SubgraphWork) (s : EngState),
      (engineExecute env cfg st work s).1 = .success := by
  refine ⟨rfl, rfl, ?_⟩
  intro env cfg st work
  induction work with
  | nil => intro s; rfl
  | cons w rest ih =>
    intro s
    cases w with
    | fuse blk om => exact ih _
    | sij blks => exact ih _

/-! ## C4 — SYSTEM/NOOP TACs and the range splitter -/

/-- C4: the claim fails on the code, whose skip guard
`(next.op == SYSTEM) && (next.op == NOOP)` (engine.cpp 224) is
unsatisfiable (first conjunct) although the comment above it says
"Ignore these".  On the concrete block `ZIP; FREE; ZIP` with compatible
operands the SYSTEM TAC closes the current range and receives a singleton
range of its own — three ranges result where the claim requires the range
to continue past it. -/
theorem system_tac_splits_range :
    (∀ op : TacOp, ((op == TacOp.SYSTEM) && (op == TacOp.NOOP)) = false) ∧
    (tacsSysMid.getD 1 default).op = .SYSTEM ∧
    fuseRanges stFix tacsSysMid =
      [⟨0, 0, .CONTIGUOUS⟩, ⟨1, 1, .CONTIGUOUS⟩, ⟨2, 2, .CONTIGUOUS⟩] := by
  refine ⟨?_, rfl, by decide⟩
  intro op
  cases op <;> rfl

/-! ## C2 — scalar replacement inside fuse ranges -/

/-- C2 counterexample: in the spec's "Temp fusion" block, operand `t`
(handle 2) is produced once and consumed once inside fuse range `(0, 1)`
and is in the `temp` set — the scalar-replacement conditions hold — yet
the allocation loop of `fuse_mode` still allocates its base (it is the
`out` of an `ARRAY_OPS` TAC of the block) and the de-allocation loop still
honors its FREE: it is not made register-resident. -/
theorem scalar_candidate_still_buffered :
    fuseRanges stFix tacsTempFusion = [⟨0, 1, .CONTIGUOUS⟩, ⟨2, 2, .CONTIGUOUS⟩] ∧
    fuseScalarCandidate stFix tacsTempFusion 0 1 2 = true ∧
    2 ∈ fuseModeAllocOperands tacsTempFusion ∧
    2 ∈ fuseModeFreeOperands tacsTempFusion := by
  refine ⟨by decide, by decide, by decide, by decide⟩

/-- C2 amended: an operand that is written exactly once and read exactly
once within a fuse range and is in the `temp` set is *identified* as a
scalar-replacement candidate (the ref-count conditions of engine.cpp
357-359 hold for it), but no scalar replacement is performed — the
`turn_scalar` call on line 360 is commented out — so such an operand still
receives a base buffer allocation whenever it is the output of an
`ARRAY_OPS` TAC of the block, and any FREE TAC targeting it is still
honored by the de-allocation loop. -/
theorem scalar_candidates_identified_not_replaced (st : SymbolTable)
    (tacs : List Tac) (rb re o : Nat)
    (hc : fuseScalarCandidate st tacs rb re o = true) :
    ((rangeInputs tacs rb re).count o = 1 ∧
     (rangeOutputs tacs rb re).count o = 1 ∧ o ∈ st.temp) ∧
    (∀ t ∈ tacs, isArrayOp t.op = true → t.out = o →
      o ∈ fuseModeAllocOperands tacs) ∧
    (∀ t ∈ tacs, t.oper = .FREE → t.out = o →
      o ∈ fuseModeFreeOperands tacs) := by
  refine ⟨?_, ?_, ?_⟩
  · unfold fuseScalarCandidate at hc
    simp only [Bool.and_eq_true, beq_iff_eq, decide_eq_true_eq] at hc
    exact ⟨hc.1.1, hc.1.2, hc.2⟩
  · intro t ht harr hout
    unfold fuseModeAllocOperands
    exact List.mem_map.mpr ⟨t, List.mem_filter.mpr ⟨ht, harr⟩, hout⟩
  · intro t ht hfree hout
    unfold fuseModeFreeOperands
    refine List.mem_map.mpr ⟨t, List.mem_filter.mpr ⟨ht, ?_⟩, hout⟩
    simp [hfree]

/-- Witness for C2's amended theorem, at the "Temp fusion" block and its
first fuse range `(0, 1)` with candidate operand `2`. -/
theorem scalar_candidates_identified_not_replaced_witness :
    fuseScalarCandidate stFix tacsTempFusion 0 1 2 = true ∧
    (((rangeInputs tacsTempFusion 0 1).count 2 = 1 ∧
      (rangeOutputs tacsTempFusion 0 1).count 2 = 1 ∧ 2 ∈ stFix.temp) ∧
     (∀ t ∈ tacsTempFusion, isArrayOp t.op = true → t.out = 2 →
       2 ∈ fuseModeAllocOperands tacsTempFusion) ∧
     (∀ t ∈ tacsTempFusion, t.oper = .FREE → t.out = 2 →
       2 ∈ fuseModeFreeOperands tacsTempFusion)) :=
  ⟨by decide,
   scalar_candidates_identified_not_replaced stFix tacsTempFusion 0 1 2 (by decide)⟩



/-! ## C3 — at most one compilation per fingerprint -/

/-- Helper: a loaded fingerprint survives `storageLoad` and the compile log
is untouched by it. -/
theorem storageLoad_ready (env : EngEnv) (s : EngState) (fp' fp : Nat)
    (h : fp ∈ s.funcs) :
    fp ∈ (storageLoad env s fp').2.funcs ∧
    (storageLoad env s fp').2.compiles = s.compiles := by
  unfold storageLoad
  split
  · exact ⟨List.mem_append_left _ h, rfl⟩
  · exact ⟨h, rfl⟩

/-- Helper: once `fp` is loaded, `jitPhase` for any block leaves the number
of `fp`-compilations unchanged and keeps `fp` loaded. -/
theorem jitPhase_ready (env : EngEnv) (fp' : Nat) (gc gl : Bool)
    (s : EngState) (fp : Nat) (h : fp ∈ s.funcs) :
    (jitPhase env fp' gc gl s).2.compiles.count fp = s.compiles.count fp ∧
    fp ∈ (jitPhase env fp' gc gl s).2.funcs := by
  have hcount : ∀ l : List Nat, fp' ≠ fp → (l ++ [fp']).count fp = l.count fp := by
    intro l hne
    simp [List.count_append, List.count_singleton, hne]
  by_cases hfp : fp' = fp
  · subst hfp
    unfold jitPhase jitLoad
    simp [symbolReady, h]
  · by_cases hmem : fp' ∈ s.funcs <;>
      cases hgc : gc <;> cases hgl : gl <;>
      cases hco : env.compileOk fp' <;> cases hlo : env.loadOk fp' <;>
      simp [jitPhase, jitLoad, storageLoad, addSymbol, symbolReady, hmem,
        hco, hlo, hcount _ hfp, h, List.mem_append]

/-- Helper: once `fp` is loaded, `sij_mode` leaves the number of
`fp`-compilations unchanged and keeps `fp` loaded. -/
theorem sijMode_ready (env : EngEnv) (cfg : EngCfg) (st : SymbolTable)
    (blk : EBlock) (s : EngState) (fp : Nat) (h : fp ∈ s.funcs) :
    (sijMode env cfg st blk s).2.compiles.count fp = s.compiles.count fp ∧
    fp ∈ (sijMode env cfg st blk s).2.funcs := by
  have hj := jitPhase_ready env blk.symbol cfg.jitEnabled true s fp h
  unfold sijMode
  cases blk.tacs.head? with
  | none => exact ⟨rfl, h⟩
  | some tac =>
    rcases tac with ⟨op, oper, o1, i1, i2, e⟩
    cases op <;> dsimp only
    case NOOP => exact ⟨rfl, h⟩
    case SYSTEM =>
      cases oper <;> dsimp only
      case FREE => split <;> exact ⟨rfl, h⟩
      case DISCARD => exact ⟨rfl, h⟩
      case SYNC => exact ⟨rfl, h⟩
      case ADD => exact ⟨rfl, h⟩
      case MUL => exact ⟨rfl, h⟩
    case EXTENSION =>
      split
      · split <;> exact ⟨rfl, h⟩
      · exact ⟨rfl, h⟩
    case MAP =>
      split
      · exact hj
      · split <;> exact hj
    case ZIP =>
      split
      · exact hj
      · split <;> exact hj
    case GENERATE =>
      split
      · exact hj
      · split <;> exact hj
    case REDUCE =>
      split
      · exact hj
      · split <;> exact hj
    case SCAN =>
      split
      · exact hj
      · split <;> exact hj

/-- Helper: once `fp` is loaded, `fuse_mode` leaves the number of
`fp`-compilations unchanged and keeps `fp` loaded. -/
theorem fuseModeJit_ready (env : EngEnv) (cfg : EngCfg) (st : SymbolTable)
    (blk : EBlock) (om : Bool) (s : EngState) (fp : Nat) (h : fp ∈ s.funcs) :
    (fuseModeJit env cfg st blk om s).2.compiles.count fp = s.compiles.count fp ∧
    fp ∈ (fuseModeJit env cfg st blk om s).2.funcs := by
  have hj := jitPhase_ready env blk.symbol (cfg.jitEnabled && om) om s fp h
  unfold fuseModeJit
  split
  · exact ⟨rfl, h⟩
  · dsimp only
    split
    · exact hj
    · split
      · exact hj
      · split <;> exact hj

/-- C3: once a fingerprint has been compiled and its symbol loaded
(`fp ∈ funcs`, i.e. `Storage::symbol_ready`), no later `sij_mode` or
`fuse_mode` invocation — over any sequence of helper calls for the rest of
the engine process — invokes `Compiler::compile` with that fingerprint
again: the count of `fp` in the compile log never changes. -/
theorem at_most_one_compile_per_fingerprint (env : EngEnv) (cfg : EngCfg)
    (calls : List EngCall) (s : EngState) (fp : Nat) (h : fp ∈ s.funcs) :
    (runCalls env cfg calls s).compiles.count fp = s.compiles.count fp := by
  induction calls generalizing s with
  | nil => rfl
  | cons c r ih =>
    cases c with
    | sij st b =>
      have hs := sijMode_ready env cfg st b s fp h
      have hr := ih (sijMode env cfg st b s).2 hs.2
      exact hr.trans hs.1
    | fuse st b om =>
      have hs := fuseModeJit_ready env cfg st b om s fp h
      have hr := ih (fuseModeJit env cfg st b om s).2 hs.2
      exact hr.trans hs.1

/-- Witness for C3: with fingerprint `7` compiled and loaded, a later
`sij_mode` and a later `fuse_mode` submission of a block with fingerprint
`7` perform no compilation. -/
theorem at_most_one_compile_per_fingerprint_witness :
    (7 : Nat) ∈ engS7.funcs ∧
    (runCalls envOk cfgJit
        [.sij stFix mapBlock7, .fuse stFix mapBlock7 true] engS7).compiles.count 7 =
      engS7.compiles.count 7 :=
  ⟨by decide,
   at_most_one_compile_per_fingerprint envOk cfgJit
     [.sij stFix mapBlock7, .fuse stFix mapBlock7 true] engS7 7 (by decide)⟩

/-! ## C7 — compiler failure is not cached -/

/-- C7: when the external compiler invocation fails for a block's
fingerprint, `sij_mode` (engine.cpp 157-160) and `fuse_mode`
(engine.cpp 404-408) return `BH_ERROR` before `add_symbol` is reached:
Storage is unchanged (same `objects`, same `funcs`) and only the compile
log records the attempt.  Consequently a later submission of a block with
the same fingerprint finds `symbol_ready` still false and invokes the
compiler afresh — two consecutive submissions log two compile attempts
(third conjunct). -/
theorem compile_failure_not_recorded (env : EngEnv) (cfg : EngCfg)
    (st : SymbolTable) (blk : EBlock) (s : EngState) (t : Tac)
    (hjit : cfg.jitEnabled = true)
    (hfail : env.compileOk blk.symbol = false)
    (hready : blk.symbol ∉ s.funcs)
    (htac : blk.tacs = [t]) (harr : isArrayOp t.op = true)
    (hsym : env.symbolizeOk blk.symbol = true) :
    sijMode env cfg st blk s =
      (.error, ⟨s.objects, s.funcs, s.compiles ++ [blk.symbol]⟩) ∧
    fuseModeJit env cfg st blk true s =
      (.error, ⟨s.objects, s.funcs, s.compiles ++ [blk.symbol]⟩) ∧
    (sijMode env cfg st blk (sijMode env cfg st blk s).2).2.compiles =
      s.compiles ++ [blk.symbol, blk.symbol] := by
  have hjp : ∀ s' : EngState, blk.symbol ∉ s'.funcs → ∀ gc gl : Bool, gc = true →
      jitPhase env blk.symbol gc gl s' =
        (.error, ⟨s'.objects, s'.funcs, s'.compiles ++ [blk.symbol]⟩) := by
    intro s' hs' gc gl hgc
    subst hgc
    unfold jitPhase
    simp [symbolReady, hs', hfail]
  have hsij : ∀ s' : EngState, blk.symbol ∉ s'.funcs →
      sijMode env cfg st blk s' =
        (.error, ⟨s'.objects, s'.funcs, s'.compiles ++ [blk.symbol]⟩) := by
    intro s' hs'
    unfold sijMode
    rw [htac]
    rcases t with ⟨op, oper, o1, i1, i2, e⟩
    cases op <;> simp_all [isArrayOp]
  refine ⟨hsij s hready, ?_, ?_⟩
  · unfold fuseModeJit
    rw [hsym]
    dsimp only
    rw [hjp s hready (cfg.jitEnabled && true) true (by simp [hjit])]
    simp
  · rw [hsij s hready]
    dsimp only
    rw [hsij ⟨s.objects, s.funcs, s.compiles ++ [blk.symbol]⟩ hready]
    simp

/-- Witness for C7 at a concrete failing toolchain and the MAP block with
fingerprint `9`. -/
theorem compile_failure_not_recorded_witness :
    cfgJit.jitEnabled = true ∧
    envNoCompile.compileOk mapBlock9.symbol = false ∧
    mapBlock9.symbol ∉ engS0.funcs ∧
    (sijMode envNoCompile cfgJit stFix mapBlock9 engS0 =
       (.error, ⟨engS0.objects, engS0.funcs, engS0.compiles ++ [mapBlock9.symbol]⟩) ∧
     fuseModeJit envNoCompile cfgJit stFix mapBlock9 true engS0 =
       (.error, ⟨engS0.objects, engS0.funcs, engS0.compiles ++ [mapBlock9.symbol]⟩) ∧
     (sijMode envNoCompile cfgJit stFix mapBlock9
        (sijMode envNoCompile cfgJit stFix mapBlock9 engS0).2).2.compiles =
       engS0.compiles ++ [mapBlock9.symbol, mapBlock9.symbol]) :=
  ⟨rfl, rfl, by decide,
   compile_failure_not_recorded envNoCompile cfgJit stFix mapBlock9 engS0
     ⟨.MAP, .ADD, 2, 0, 0, 0⟩ rfl rfl (by decide) rfl rfl rfl⟩

/-! ## C9 — unregistered user functions -/

/-- C9 counterexample: a batch whose only instruction is an EXTENSION TAC
with an unregistered opcode (`5`, extensions map empty) completes
*successfully* on the CPU engine: `sij_mode` silently skips the instruction
(the `if (ext != extensions.end())` body on engine.cpp 115-122 is simply not
entered) and `execute` returns `BH_SUCCESS` — not an
unsupported-user-function error as the claim requires. -/
theorem unregistered_extension_silently_skipped :
    cfgJit.extensions = [] ∧ extTac.op = .EXTENSION ∧
    (sijMode envOk cfgJit stFix extBlock engS0).1 = .success ∧
    (engineExecute envOk cfgJit stFix [.sij [extBlock]] engS0).1 = .success := by
  exact ⟨rfl, rfl, rfl, rfl⟩

/-- C9 amended: the two engines diverge.  In `bh_ve_naive_execute` a
`BH_USERFUNC` instruction whose id matches none of the registered
implementation ids yields `BH_USERFUNC_NOT_SUPPORTED` and aborts the batch
at that instruction (no later instruction runs — first conjunct, for any
continuation of the batch).  In the CPU engine's `sij_mode`, an EXTENSION
TAC whose opcode has no entry in the extensions map is silently skipped and
the helper returns `BH_SUCCESS` with the state untouched (second
conjunct). -/
theorem unregistered_userfunc_amended
    (nenv : NaiveEnv) (ns : NaiveState) (i : Int) (rest : List NInstr)
    (h1 : i ≠ ns.randomImplId) (h2 : i ≠ ns.matmulImplId)
    (h3 : i ≠ ns.nselectImplId)
    (env : EngEnv) (cfg : EngCfg) (st : SymbolTable) (blk : EBlock)
    (s : EngState) (t : Tac) (ts : List Tac)
    (htac : blk.tacs = t :: ts) (hop : t.op = .EXTENSION)
    (hreg : cfg.extensions.contains t.ext = false) :
    naiveExecute nenv ns (.userfunc i :: rest) = .userfuncNotSupported ∧
    sijMode env cfg st blk s = (.success, s) := by
  constructor
  · unfold naiveExecute naiveStep
    simp [h1, h2, h3]
  · unfold sijMode
    rw [htac]
    rcases t with ⟨op, oper, o1, i1, i2, e⟩
    cases op <;> simp_all

/-- Witness for C9's amended theorem: unknown userfunc id `5` against the
fresh naive state, and the unregistered EXTENSION block against the CPU
engine. -/
theorem unregistered_userfunc_amended_witness :
    (5 : Int) ≠ nsEmpty.randomImplId ∧
    (naiveExecute nenvOk nsEmpty [.userfunc 5, .nop] = .userfuncNotSupported ∧
     sijMode envOk cfgJit stFix extBlock engS0 = (.success, engS0)) :=
  ⟨by decide,
   unregistered_userfunc_amended nenvOk nsEmpty 5 [.nop]
     (by decide) (by decide) (by decide)
     envOk cfgJit stFix extBlock engS0 extTac [] rfl rfl rfl⟩

/-! ## C10 — idempotence of `bh_ve_naive_reg_func` -/

/-- Helper: a `reg_func` call for any name `g` leaves a slot that is
already registered (impl non-NULL) unchanged. -/
theorem regFunc_preserves_slot (env : NaiveEnv) (ns : NaiveState)
    (g : String) (i : Int) (n : String) (f : Nat)
    (hf : (regSlot ns n).1 = some f) :
    regSlot (naiveRegFunc env ns g i).2.2 n = regSlot ns n := by
  unfold naiveRegFunc
  split_ifs with hg1 hg2 hg3
  · cases hri : ns.randomImpl with
    | none =>
      cases hgf : env.getFunc g with
      | none => simp
      | some fnew =>
        unfold regSlot at hf ⊢
        split_ifs at hf ⊢ <;> simp_all
    | some x => simp
  · cases hmi : ns.matmulImpl with
    | none =>
      cases hgf : env.getFunc g with
      | none => simp
      | some fnew =>
        unfold regSlot at hf ⊢
        split_ifs at hf ⊢ <;> simp_all
    | some x => simp
  · cases hni : ns.nselectImpl with
    | none =>
      cases hgf : env.getFunc g with
      | none => simp
      | some fnew =>
        unfold regSlot at hf ⊢
        split_ifs at hf ⊢ <;> simp_all
    | some x => simp
  · simp

/-- Helper: a `reg_func` call for a supported name whose slot is already
registered returns success and the recorded id, and does not change the
state. -/
theorem regFunc_registered (env : NaiveEnv) (ns : NaiveState) (n : String)
    (f : Nat) (r anyId : Int)
    (hsupp : n = bhRandomName ∨ n = bhMatmulName ∨ n = bhNselectName)
    (hreg : regSlot ns n = (some f, r)) :
    naiveRegFunc env ns n anyId = (.success, r, ns) := by
  rcases hsupp with h | h | h <;> subst h <;>
    unfold regSlot at hreg <;> unfold naiveRegFunc <;>
    split_ifs at hreg ⊢ <;> simp_all

/-- C10: `bh_ve_naive_reg_func` is idempotent per supported function name.
Once a name's implementation slot is registered with implementation `f` and
recorded id `r` (which the first successful call set from the
caller-supplied `*id` — fourth conjunct), any sequence of later `reg_func`
calls leaves the slot unchanged (first conjunct), and a later call with the
same name returns `BH_SUCCESS`, writes the recorded id `r` into `*id`, and
leaves the state unchanged (second conjunct).  Any unsupported name yields
`BH_USERFUNC_NOT_SUPPORTED` with `*id` and the state untouched (third
conjunct). -/
theorem reg_func_idempotent (env : NaiveEnv) (ns : NaiveState)
    (calls : List (String × Int)) (n : String) (f : Nat) (r anyId : Int)
    (hsupp : n = bhRandomName ∨ n = bhMatmulName ∨ n = bhNselectName)
    (hreg : regSlot ns n = (some f, r)) :
    regSlot (runRegCalls env calls ns) n = (some f, r) ∧
    naiveRegFunc env (runRegCalls env calls ns) n anyId =
      (.success, r, runRegCalls env calls ns) ∧
    (∀ (g : String) (i : Int),
      ¬(g = bhRandomName ∨ g = bhMatmulName ∨ g = bhNselectName) →
      naiveRegFunc env ns g i = (.userfuncNotSupported, i, ns)) ∧
    (∀ (ns2 : NaiveState) (i : Int) (fg : Nat),
      (regSlot ns2 n).1 = none → env.getFunc n = some fg →
      naiveRegFunc env ns2 n i =
        (.success, i, (naiveRegFunc env ns2 n i).2.2) ∧
      regSlot (naiveRegFunc env ns2 n i).2.2 n = (some fg, i)) := by
  have hpres : regSlot (runRegCalls env calls ns) n = (some f, r) := by
    induction calls generalizing ns with
    | nil => exact hreg
    | cons c cs ih =>
      have hstep := regFunc_preserves_slot env ns c.1 c.2 n f (by rw [hreg])
      exact ih (naiveRegFunc env ns c.1 c.2).2.2 (hstep.trans hreg)
  refine ⟨hpres, regFunc_registered env _ n f r anyId hsupp hpres, ?_, ?_⟩
  · intro g i hg
    push_neg at hg
    unfold naiveRegFunc
    simp [hg.1, hg.2.1, hg.2.2]
  · intro ns2 i fg hnone hget
    rcases hsupp with h | h | h <;> subst h <;>
      unfold regSlot at hnone ⊢ <;> unfold naiveRegFunc <;>
      split_ifs at hnone ⊢ <;> simp_all

/-- Witness for C10: with `bh_random` registered under id `42`, later calls
(including an interleaved `bh_matmul` registration) leave it untouched and
report the recorded id. -/
theorem reg_func_idempotent_witness :
    (bhRandomName = bhRandomName ∨ bhRandomName = bhMatmulName ∨
      bhRandomName = bhNselectName) ∧
    regSlot nsRandomReg bhRandomName = (some 11, 42) ∧
    (regSlot (runRegCalls nenvOk [(bhMatmulName, 7), (bhRandomName, 9)] nsRandomReg)
        bhRandomName = (some 11, 42) ∧
     naiveRegFunc nenvOk
        (runRegCalls nenvOk [(bhMatmulName, 7), (bhRandomName, 9)] nsRandomReg)
        bhRandomName 99 =
      (.success, 42,
       runRegCalls nenvOk [(bhMatmulName, 7), (bhRandomName, 9)] nsRandomReg) ∧
     (∀ (g : String) (i : Int),
       ¬(g = bhRandomName ∨ g = bhMatmulName ∨ g = bhNselectName) →
       naiveRegFunc nenvOk nsRandomReg g i = (.userfuncNotSupported, i, nsRandomReg)) ∧
     (∀ (ns2 : NaiveState) (i : Int) (fg : Nat),
       (regSlot ns2 bhRandomName).1 = none → nenvOk.getFunc bhRandomName = some fg →
       naiveRegFunc nenvOk ns2 bhRandomName i =
         (.success, i, (naiveRegFunc nenvOk ns2 bhRandomName i).2.2) ∧
       regSlot (naiveRegFunc nenvOk ns2 bhRandomName i).2.2 bhRandomName =
         (some fg, i))) :=
  ⟨Or.inl rfl, by decide,
   reg_func_idempotent nenvOk nsRandomReg [(bhMatmulName, 7), (bhRandomName, 9)]
     bhRandomName 11 42 99 (Or.inl rfl) (by decide)⟩

/-! ## C5 — merges are data-parallel legal -/

/-- Helper: a positive merge decision implies the data-parallel
compatibility guard passed. -/
theorem mergeDecision_dpc (env : FEnv) (cur b m : UBlock)
    (h : mergeDecision env cur b = some m) : dpcBlock env cur b = true := by
  unfold mergeDecision at h
  split_ifs at h <;> simp_all

/-- Helper: every merge event recorded by the absorption loop passed the
data-parallel compatibility guard. -/
theorem absorb_events_dpc (env : FEnv) :
    ∀ (rest : List UBlock) (cur : UBlock) (ab : UBlock × UBlock),
      ab ∈ (absorb env cur rest).2.2 → dpcBlock env ab.1 ab.2 = true := by
  intro rest
  induction rest with
  | nil =>
    intro cur ab hab
    simp [absorb] at hab
  | cons b bs ih =>
    intro cur ab hab
    unfold absorb at hab
    cases hmd : mergeDecision env cur b with
    | none => simp [hmd] at hab
    | some m =>
      simp only [hmd, List.mem_cons] at hab
      rcases hab with h | h
      · rw [h]
        exact mergeDecision_dpc env cur b m hmd
      · exact ih m ab h

/-- Helper: every merge event of `fuser_serial` (at any depth) passed the
data-parallel compatibility guard. -/
theorem fuserSerial_events_dpc (env : FEnv) :
    ∀ (fuel : Nat) (l : List UBlock) (ab : UBlock × UBlock),
      ab ∈ (fuserSerial env fuel l).2 → dpcBlock env ab.1 ab.2 = true := by
  intro fuel
  induction fuel with
  | zero =>
    intro l ab hab
    simp [fuserSerial] at hab
  | succ fuel ih =>
    intro l ab hab
    cases l with
    | nil => simp [fuserSerial] at hab
    | cons b bs =>
      unfold fuserSerial at hab
      cases hb : b.isInstr with
      | true =>
        simp only [hb, if_true] at hab
        exact ih bs ab hab
      | false =>
        simp only [hb, Bool.false_eq_true, if_false, List.mem_append] at hab
        rcases hab with (h | h) | h
        · exact absorb_events_dpc env bs b ab h
        · exact ih _ ab h
        · exact ih _ ab h

/-- Helper: block-level data-parallel compatibility gives the
instruction-pair property. -/
theorem dpcBlock_pair (env : FEnv) (A B : UBlock) (a b : UInstr)
    (ha : a ∈ A.getAllInstr) (hb : b ∈ B.getAllInstr)
    (h : dpcBlock env A B = true) : dpcInstr env a b = true := by
  unfold dpcBlock at h
  rw [List.all_eq_true] at h
  have h2 := h a ha
  rw [List.all_eq_true] at h2
  exact h2 b hb

/-- C5: whenever `fuser_serial` merges two blocks (at any nesting depth and
for any view/opcode oracles), every pair of non-system instructions — one
from each side of the merge — satisfies the data-parallel condition: the
output operand of each instruction is disjoint from or aligned with every
operand of the other (`dpcPairOK`, the pairwise core of
`data_parallel_compatible`). -/
theorem fuser_merges_only_data_parallel (env : FEnv) (fuel : Nat)
    (l : List UBlock) (ab : UBlock × UBlock)
    (hab : ab ∈ (fuserSerial env fuel l).2) (a b : UInstr)
    (ha : a ∈ ab.1.getAllInstr) (hb : b ∈ ab.2.getAllInstr)
    (hsa : env.isSystem a.opcode = false)
    (hsb : env.isSystem b.opcode = false) :
    dpcPairOK env a b = true := by
  have h := dpcBlock_pair env ab.1 ab.2 a b ha hb
    (fuserSerial_events_dpc env fuel l ab hab)
  unfold dpcInstr at h
  rw [hsa, hsb] at h
  simpa using h

/-- Witness for C5: a concrete merge of two aligned single-instruction
nests. -/
theorem fuser_merges_only_data_parallel_witness :
    (blockA, blockB) ∈ (fuserSerial fenvAligned 2 [blockA, blockB]).2 ∧
    instrA ∈ (blockA, blockB).1.getAllInstr ∧
    instrB ∈ (blockA, blockB).2.getAllInstr ∧
    fenvAligned.isSystem instrA.opcode = false ∧
    fenvAligned.isSystem instrB.opcode = false ∧
    dpcPairOK fenvAligned instrA instrB = true := by
  have hmem : (blockA, blockB) ∈ (fuserSerial fenvAligned 2 [blockA, blockB]).2 := by
    have he : (fuserSerial fenvAligned 2 [blockA, blockB]).2 = [(blockA, blockB)] := rfl
    rw [he]
    exact List.mem_singleton.mpr rfl
  have ha : instrA ∈ (blockA, blockB).1.getAllInstr := by
    have he : (blockA, blockB).1.getAllInstr = [instrA] := rfl
    rw [he]
    exact List.mem_singleton.mpr rfl
  have hb : instrB ∈ (blockA, blockB).2.getAllInstr := by
    have he : (blockA, blockB).2.getAllInstr = [instrB] := rfl
    rw [he]
    exact List.mem_singleton.mpr rfl
  exact ⟨hmem, ha, hb, rfl, rfl,
    fuser_merges_only_data_parallel fenvAligned 2 [blockA, blockB]
      (blockA, blockB) hmem instrA instrB ha hb rfl rfl⟩

/-! ## C8 — when `fuser_serial` merges two blocks -/

/-- Helper: `getAllInstr` distributes over child-vector concatenation. -/
theorem getAllInstr_append (xs ys : UBlockList) :
    (xs.append ys).getAllInstr = xs.getAllInstr ++ ys.getAllInstr := by
  cases xs with
  | nil => rfl
  | cons b bs =>
    show b.getAllInstr ++ (bs.append ys).getAllInstr =
      (b.getAllInstr ++ bs.getAllInstr) ++ ys.getAllInstr
    rw [getAllInstr_append bs ys, List.append_assoc]

/-- Helper: the instructions of a freshly nested block are exactly the list
handed to `create_nested_block`. -/
theorem create_nested_block_getAllInstr (env : FEnv) (instrs : List UInstr)
    (rank size : Nat) :
    (create_nested_block env instrs rank size).getAllInstr = instrs := by
  show (UBlockList.ofList (instrs.map fun i => .instr (some i) (rank + 1))).getAllInstr = instrs
  induction instrs with
  | nil => rfl
  | cons i is ih =>
    show (UBlock.instr (some i) (rank + 1)).getAllInstr ++ _ = i :: is
    rw [ih]
    rfl

/-- C8 counterexample: two adjacent non-instruction blocks of equal rank
and equal (positive) size are *not* merged when their instructions fail the
data-parallel compatibility check (here: views neither disjoint nor
aligned): `fuser_serial` keeps them as two separate blocks with no merge
event, so "merges … exactly when either their sizes are equal, or …" is
false as stated — the size condition holds and no merge happens. -/
theorem equal_size_blocks_not_merged :
    blockA.isInstr = false ∧ blockB.isInstr = false ∧
    blockA.rank = blockB.rank ∧ blockA.size = blockB.size ∧ 0 < blockA.size ∧
    (mergeDecision fenvClash blockA blockB).isSome = false ∧
    (fuserSerial fenvClash 2 [blockA, blockB]).1.length = 2 ∧
    (fuserSerial fenvClash 2 [blockA, blockB]).2.length = 0 :=
  ⟨rfl, rfl, rfl, rfl, by decide, rfl, rfl, rfl⟩

/-- C8 amended: the inner-loop merge decision of `fuser_serial` merges the
accumulated block `cur` with the next block `b` exactly when `b` is a
non-instruction block, the two blocks are data-parallel compatible, `cur`
carries no sweeps, and either their sizes are equal or one block is
reshapable and the other block's size divides it evenly
(`specMergeCondition`); and every merged block carries both blocks'
instructions re-nested together and (for positive sizes) takes the smaller
of the two sizes. -/
theorem merge_exactly_when (env : FEnv) (cur b : UBlock)
    (hcur : cur.isInstr = false) (h1 : 0 < cur.size) (h2 : 0 < b.size) :
    (mergeDecision env cur b).isSome = specMergeCondition env cur b ∧
    ∀ m, mergeDecision env cur b = some m →
      m.getAllInstr = cur.getAllInstr ++ b.getAllInstr ∧
      m.size = min cur.size b.size := by
  have hd1 : (b.size % cur.size == 0) = decide (cur.size ∣ b.size) := by
    by_cases hmod : b.size % cur.size = 0 <;>
      simp [hmod, Nat.dvd_iff_mod_eq_zero]
  have hd2 : (cur.size % b.size == 0) = decide (b.size ∣ cur.size) := by
    by_cases hmod : cur.size % b.size = 0 <;>
      simp [hmod, Nat.dvd_iff_mod_eq_zero]
  constructor
  · unfold mergeDecision specMergeCondition
    rw [hd1, hd2]
    split_ifs <;> simp_all
  · intro m hm
    unfold mergeDecision at hm
    split_ifs at hm with hbi hdpc hsw hsz hrb hrc
    · -- equal sizes: direct merge via `umerge`
      have hmm : m = umerge cur b := (Option.some.inj hm).symm
      subst hmm
      cases cur with
      | instr i r => simp [UBlock.isInstr] at hcur
      | node rc sc reshc swc blc =>
        cases b with
        | instr i r => simp [UBlock.isInstr] at hbi
        | node rb sb reshb swb blb =>
          refine ⟨?_, ?_⟩
          · show (blc.append blb).getAllInstr = _
            rw [getAllInstr_append]
            rfl
          · have hsz' : sc = sb := by simpa using hsz
            show sc = min sc sb
            rw [hsz', Nat.min_self]
    · -- `b` reshapable, `cur.size` divides `b.size`
      have hmm : m = create_nested_block env (cur.getAllInstr ++ b.getAllInstr)
          b.rank cur.size := (Option.some.inj hm).symm
      subst hmm
      refine ⟨create_nested_block_getAllInstr env _ _ _, ?_⟩
      have hdvd : cur.size ∣ b.size := by
        have := (Bool.and_eq_true _ _).mp hrb
        rw [hd1] at this
        simpa using this.2
      have hle : cur.size ≤ b.size := Nat.le_of_dvd h2 hdvd
      show cur.size = min cur.size b.size
      rw [Nat.min_eq_left hle]
    · -- `cur` reshapable, `b.size` divides `cur.size`
      have hmm : m = create_nested_block env (cur.getAllInstr ++ b.getAllInstr)
          cur.rank b.size := (Option.some.inj hm).symm
      subst hmm
      refine ⟨create_nested_block_getAllInstr env _ _ _, ?_⟩
      have hdvd : b.size ∣ cur.size := by
        have := (Bool.and_eq_true _ _).mp hrc
        rw [hd2] at this
        simpa using this.2
      have hle : b.size ≤ cur.size := Nat.le_of_dvd h1 hdvd
      show b.size = min cur.size b.size
      rw [Nat.min_eq_right hle]

/-- Witness for C8's amended theorem: a non-reshapable size-2 nest against
a reshapable size-4 nest with aligned views — merged by re-nesting at the
smaller size 2. -/
theorem merge_exactly_when_witness :
    blockC.isInstr = false ∧ 0 < blockC.size ∧ 0 < blockD.size ∧
    ((mergeDecision fenvAligned blockC blockD).isSome =
       specMergeCondition fenvAligned blockC blockD ∧
     ∀ m, mergeDecision fenvAligned blockC blockD = some m →
       m.getAllInstr = blockC.getAllInstr ++ blockD.getAllInstr ∧
       m.size = min blockC.size blockD.size) :=
  ⟨rfl, by decide, by decide,
   merge_exactly_when fenvAligned blockC blockD rfl (by decide) (by decide)⟩

/-! ## C6 — determinism of the random extension -/

/-- C6: the random extension is deterministic given its seed.
`cphvb_compute_random` seeds a fresh Mersenne-Twister state from
`rk_initseed`, whose only run-dependent inputs are the process id and the
time of day (`initSeedOf`); the entire fill is a pure function of the
derived seed, the scalar type and the element count.  Two executions whose
derived seeds coincide — in particular two runs with identical
`(pid, sec, usec)` — produce identical array contents, element for
element, under `genElem`'s integer encoding of every scalar type. -/
theorem random_fill_deterministic (pid sec usec pid2 sec2 usec2 : Nat)
    (t : CphvbType) (n : Nat) (m : Bool)
    (h : initSeedOf pid sec usec = initSeedOf pid2 sec2 usec2) :
    computeRandom m t n pid sec usec = computeRandom m t n pid2 sec2 usec2 := by
  unfold computeRandom
  rw [h]

/-- Witness for C6 at identical inputs `(pid, sec, usec) = (1, 2, 3)`. -/
theorem random_fill_deterministic_witness :
    initSeedOf 1 2 3 = initSeedOf 1 2 3 ∧
    computeRandom true .int32 4 1 2 3 = computeRandom true .int32 4 1 2 3 :=
  ⟨rfl, random_fill_deterministic 1 2 3 1 2 3 .int32 4 true rfl⟩
